import Mathlib

set_option maxHeartbeats 2000000
set_option maxRecDepth 100000

/- Batteries marks rational arithmetic `@[irreducible]`; witnesses and
counterexamples below evaluate score computations by `decide`, which needs
these definitions to unfold. -/
attribute [local semireducible] Rat.mul Rat.add Rat.inv Rat.sub

/-!
Shallow embedding of `QueryNest/backend/model.py`.

Strings are modelled as `String`/`List Char`; Python numeric scores (numpy
floats) as `ℚ`; the external model collaborators (sentence embedder, QA
pipeline, abstractive summarizer, NLTK sentence tokenizer) as function
parameters, failing collaborators as `Option`/`Except`-valued parameters.
The regular expressions of the source only ever apply `*`/`+` to single
character classes, so an exact backtracking matcher with Python's
leftmost/alternative-priority/greedy semantics is implemented below.
-/

/-! ### Python character classes (ASCII fragment, matching `\s`, `\d`, `(?i)[a-z]`) -/

def pyIsSpace (c : Char) : Bool :=
  c = ' ' || c = '\t' || c = '\n' || c = '\r' || c = '\x0b' || c = '\x0c'

def pyIsDigit (c : Char) : Bool := '0' ≤ c && c ≤ '9'

/-- `[a-z]` under the `(?i)` flag: any ASCII letter. -/
def azLetter (c : Char) : Bool := ('a' ≤ c && c ≤ 'z') || ('A' ≤ c && c ≤ 'Z')

def isColonDot (c : Char) : Bool := c = ':' || c = '.'

def isWsDash (c : Char) : Bool := pyIsSpace c || c = '-'

def isWsDashDot (c : Char) : Bool := pyIsSpace c || c = '-' || c = '.'

def isSentEnd (c : Char) : Bool := c = '.' || c = '!' || c = '?'

/-! ### Generic list/string helpers with Python semantics -/

/-- Does `pre` occur at the head of `l`? -/
def listStarts : List Char → List Char → Bool
  | [], _ => true
  | _ :: _, [] => false
  | a :: as_, b :: bs => a = b && listStarts as_ bs

/-- Python `needle in hay` (contiguous substring; empty needle matches). -/
def containsSub (needle : List Char) : List Char → Bool
  | [] => listStarts needle []
  | c :: t => listStarts needle (c :: t) || containsSub needle t

/-- Python slice `s[a:b]` (character indices). -/
def sliceCs (cs : List Char) (a b : Nat) : List Char := (cs.take b).drop a

/-- Python `str.strip()` on the character list. -/
def pyStrip (cs : List Char) : List Char :=
  ((cs.dropWhile pyIsSpace).reverse.dropWhile pyIsSpace).reverse

/-- Accumulating worker for Python `str.split()` (`cur` is the reversed
current word). -/
def pySplitGo (cur : List Char) : List Char → List (List Char)
  | [] => if cur = [] then [] else [cur.reverse]
  | c :: cs =>
    if pyIsSpace c then
      if cur = [] then pySplitGo [] cs else cur.reverse :: pySplitGo [] cs
    else
      pySplitGo (c :: cur) cs

/-- Python `str.split()` (split on whitespace runs, dropping empty words). -/
def pySplitC (cs : List Char) : List (List Char) := pySplitGo [] cs

/-- Python `sep.join(parts)` at the character-list level. -/
def wjoin (sep : List Char) : List (List Char) → List Char
  | [] => []
  | w :: ws =>
    match ws with
    | [] => w
    | _ :: _ => w ++ sep ++ wjoin sep ws

/-- Python `' '.join(parts)` on strings. -/
def sjoin (parts : List String) : String :=
  String.mk (wjoin [' '] (parts.map String.data))

/-- Python `str.split()` on strings. -/
def pySplitS (s : String) : List String := (pySplitC s.data).map String.mk

/-- Python `hay.find(needle)` (first index of substring, `-1` if absent). -/
def pyFindGo (needle : List Char) : Nat → List Char → Int
  | i, [] => if listStarts needle [] then Int.ofNat i else -1
  | i, c :: t =>
    if listStarts needle (c :: t) then Int.ofNat i else pyFindGo needle (i + 1) t

def pyFind (needle hay : List Char) : Int := pyFindGo needle 0 hay

/-- Lowercase a string character by character (Python `str.lower()`, ASCII). -/
def lowerStr (s : String) : String := String.mk (s.data.map Char.toLower)

/-! ### A backtracking regex matcher

Every starred/plussed subexpression of the source's patterns is a single
character class, so matching is structurally recursive.  `reMatches r cs`
returns the possible remainders (suffixes of `cs` after the consumed part)
in Python's backtracking priority order: first alternative first,
greedy (longest) repetition first.  The head of the list is the match
Python's engine produces at this position. -/

inductive RE where
  | eps : RE
  | cls (p : Char → Bool) : RE
  | seq (a b : RE) : RE
  | alt (a b : RE) : RE
  | star (p : Char → Bool) : RE
  | plus (p : Char → Bool) : RE

/-- Length of the maximal run of `p`-characters at the head of `cs`. -/
def runLen (p : Char → Bool) : List Char → Nat
  | [] => 0
  | c :: cs => if p c then runLen p cs + 1 else 0

/-- Suffixes of `cs` after consuming `k` `p`-characters, for `k` from the
maximal run down to `0` (greedy order). -/
def starSuffixes (p : Char → Bool) (cs : List Char) : List (List Char) :=
  (List.range (runLen p cs + 1)).map (fun i => cs.drop (runLen p cs - i))

/-- Same but `k` ranges from the maximal run down to `1` (for `+`). -/
def plusSuffixes (p : Char → Bool) (cs : List Char) : List (List Char) :=
  (List.range (runLen p cs)).map (fun i => cs.drop (runLen p cs - i))

def reMatches : RE → List Char → List (List Char)
  | .eps, cs => [cs]
  | .cls _, [] => []
  | .cls p, c :: cs => if p c then [cs] else []
  | .seq a b, cs => (reMatches a cs).flatMap (fun cs' => reMatches b cs')
  | .alt a b, cs => reMatches a cs ++ reMatches b cs
  | .star p, cs => starSuffixes p cs
  | .plus p, cs => plusSuffixes p cs

/-- Case-insensitive literal (the source's patterns all carry `(?i)`;
`s` is given lowercase). -/
def litCI (s : String) : RE :=
  s.data.foldr (fun c r => RE.seq (RE.cls (fun x => x.toLower = c)) r) RE.eps

def seqL (l : List RE) : RE := l.foldr RE.seq RE.eps

/-- A source pattern `pre (\d+|[a-z]) suf`: every capturing group in
`model.py` is literally `(\d+|[a-z])`. -/
structure Pat where
  pre : RE
  suf : RE

/-- Matches of the group `(\d+|[a-z])` (under `(?i)`) at the head of `cs`:
`(captured, remainder)` pairs, `\d+` greedy-first, then the letter
alternative. -/
def groupMatches (cs : List Char) : List (List Char × List Char) :=
  ((List.range (runLen pyIsDigit cs)).map
      (fun i =>
        let k := runLen pyIsDigit cs - i
        (cs.take k, cs.drop k))) ++
    (match cs with
     | [] => []
     | c :: rest => if azLetter c then [([c], rest)] else [])

/-- All matches of pattern `p` anchored at `cs`, as `(group 1, remainder)`
pairs in backtracking priority order. -/
def patMatchesAt (p : Pat) (cs : List Char) : List (List Char × List Char) :=
  (reMatches p.pre cs).flatMap fun cs1 =>
    (groupMatches cs1).flatMap fun gc =>
      (reMatches p.suf gc.2).map fun cs3 => (gc.1, cs3)

/-- The combined alternation of several patterns at one position: the first
pattern (in declaration order) that matches wins; returns the remainder of
its preferred match. -/
def patsMatchAt : List Pat → List Char → Option (List Char)
  | [], _ => none
  | p :: ps, cs =>
    match patMatchesAt p cs with
    | gc :: _ => some gc.2
    | [] => patsMatchAt ps cs

/-- Preferred anchored match of a plain (group-free) regex. -/
def reMatchAt (r : RE) (cs : List Char) : Option (List Char) :=
  (reMatches r cs).head?

/-- Python `re.finditer`: scan left to right, emit non-overlapping match
spans `(start, end)`; on a zero-width match emit and advance one position.
`m cs` returns the remainder after the preferred match at this position. -/
def finditerGo (m : List Char → Option (List Char)) :
    Nat → Nat → List Char → List (Nat × Nat)
  | 0, _, _ => []
  | fuel + 1, pos, cs =>
    match m cs with
    | some rest =>
      if cs.length - rest.length = 0 then
        (pos, pos) ::
          (match cs with
           | [] => []
           | _ :: cs' => finditerGo m fuel (pos + 1) cs')
      else
        (pos, pos + (cs.length - rest.length)) ::
          finditerGo m fuel (pos + (cs.length - rest.length)) rest
    | none =>
      match cs with
      | [] => []
      | _ :: cs' => finditerGo m fuel (pos + 1) cs'

def pyFinditer (m : List Char → Option (List Char)) (cs : List Char) :
    List (Nat × Nat) :=
  finditerGo m (cs.length + 1) 0 cs

/-- Python `re.search(pat, cs)` returning group 1 of the first match. -/
def searchGroupGo (p : Pat) : Nat → List Char → Option (List Char)
  | 0, _ => none
  | fuel + 1, cs =>
    match patMatchesAt p cs with
    | gc :: _ => some gc.1
    | [] =>
      match cs with
      | [] => none
      | _ :: cs' => searchGroupGo p fuel cs'

def reSearchGroup (p : Pat) (cs : List Char) : Option String :=
  (searchGroupGo p (cs.length + 1) cs).map String.mk

/-- Pieces of `cs` between the spans (Python `re.split` given the
separator spans). -/
def cutSpans (cs : List Char) : Nat → List (Nat × Nat) → List (List Char)
  | start, [] => cs.drop start
      |> fun t => [t]
  | start, (s, e) :: rest => sliceCs cs start s :: cutSpans cs e rest

/-- Python `re.split(r, cs)`. -/
def pySplitRe (r : RE) (cs : List Char) : List (List Char) :=
  cutSpans cs 0 (pyFinditer (reMatchAt r) cs)

/-- Python `re.sub(r, '', cs)`: delete every match. -/
def removeMatches (r : RE) (cs : List Char) : List Char :=
  (cutSpans cs 0 (pyFinditer (reMatchAt r) cs)).flatten

/-! ### The source's regular expressions (`model.py` lines 320-331, 392-397, 468) -/

/-- `(?i)problem\s+statement\s+(\d+|[a-z])` -/
def secP1 : Pat := ⟨seqL [litCI "problem", .plus pyIsSpace, litCI "statement", .plus pyIsSpace], .eps⟩

/-- `(?i)problem\s+statement[\s\-]*(\d+|[a-z])` -/
def secP2 : Pat := ⟨seqL [litCI "problem", .plus pyIsSpace, litCI "statement", .star isWsDash], .eps⟩

/-- `(?i)problem\s*(\d+|[a-z])\s*[:\.]+` -/
def secP3 : Pat := ⟨seqL [litCI "problem", .star pyIsSpace], seqL [.star pyIsSpace, .plus isColonDot]⟩

/-- `(?i)ps\s*[\-\.\s]*(\d+|[a-z])` -/
def secP4 : Pat := ⟨seqL [litCI "ps", .star pyIsSpace, .star isWsDashDot], .eps⟩

/-- `(?i)section\s+(\d+|[a-z])\s*[:\.]*` -/
def secP5 : Pat := ⟨seqL [litCI "section", .plus pyIsSpace], seqL [.star pyIsSpace, .star isColonDot]⟩

/-- `(?i)chapter\s+(\d+|[a-z])` -/
def secP6 : Pat := ⟨seqL [litCI "chapter", .plus pyIsSpace], .eps⟩

/-- `(?i)part\s+(\d+|[a-z])` -/
def secP7 : Pat := ⟨seqL [litCI "part", .plus pyIsSpace], .eps⟩

/-- `section_patterns` in declaration order (`detect_sections`). -/
def sectionPats : List Pat := [secP1, secP2, secP3, secP4, secP5, secP6, secP7]

/-- The combined alternation `'|'.join(f'({p})' for p in section_patterns)`. -/
def sectionMatcher (cs : List Char) : Option (List Char) := patsMatchAt sectionPats cs

/-- `(?i)problem\s+statement\s*[\-\.\s]*(\d+|[a-z])` -/
def qryP1 : Pat :=
  ⟨seqL [litCI "problem", .plus pyIsSpace, litCI "statement", .star pyIsSpace, .star isWsDashDot], .eps⟩

/-- `(?i)problem\s*[\-\.\s]*(\d+|[a-z])` -/
def qryP2 : Pat := ⟨seqL [litCI "problem", .star pyIsSpace, .star isWsDashDot], .eps⟩

/-- `(?i)ps\s*[\-\.\s]*(\d+|[a-z])` -/
def qryP3 : Pat := ⟨seqL [litCI "ps", .star pyIsSpace, .star isWsDashDot], .eps⟩

def queryPats : List Pat := [qryP1, qryP2, qryP3]

/-- `(?i)problem\s+statement\s*[\-\.\s]*\d+|(?i)ps\s*[\-\.\s]*\d+`
(the prompt-cleaning substitution in `query_section`, line 468). -/
def stripRE : RE :=
  .alt (seqL [litCI "problem", .plus pyIsSpace, litCI "statement", .star pyIsSpace,
              .star isWsDashDot, .plus pyIsDigit])
       (seqL [litCI "ps", .star pyIsSpace, .star isWsDashDot, .plus pyIsDigit])

/-- `\n\s*\n` (the paragraph separator in `detect_sections`, line 374). -/
def paraRE : RE :=
  seqL [.cls (fun c => c = '\n'), .star pyIsSpace, .cls (fun c => c = '\n')]

/-! ### `detect_sections` (`model.py` lines 320-390) -/

/-- A section record.  Python returns dicts; the degenerate no-headings
record (line 337) omits the `std_title` and `section_num` keys, which is
modelled by `none` in the outer `Option`.  A present `section_num` key may
itself hold Python `None`, hence the inner `Option`. -/
structure PySection where
  title : String
  std_title : Option String
  section_num : Option (Option String)
  start_idx : Nat
  end_idx : Nat
  content : String
deriving DecidableEq, Repr

/-- The `for pattern in section_patterns: re.search(pattern, title)` loop
(lines 345-349): first pattern whose search succeeds contributes group 1. -/
def firstGroup : List Pat → List Char → Option String
  | [], _ => none
  | p :: ps, cs =>
    match reSearchGroup p cs with
    | some g => some g
    | none => firstGroup ps cs

/-- Lines 351-355: normalize "problem statement"/"ps"-style titles. -/
def mkStdTitle (title : List Char) (sn : Option String) : String :=
  let norm := title.map Char.toLower
  if containsSub "problem statement".data norm || norm.take 2 = ['p', 's'] then
    match sn with
    | some s => if s ≠ "" then "problem statement " ++ s else String.mk title
    | none => String.mk title
  else String.mk title

/-- One heading-derived section record (lines 341-371): the span `[s, e)` is
the heading match, `endIdx` the start of the next match (or `len(text)`). -/
def mkHeadingSection (cs : List Char) (s e endIdx : Nat) : PySection :=
  let title := pyStrip (sliceCs cs s e)
  let sn := firstGroup sectionPats title
  { title := String.mk title
    std_title := some (mkStdTitle title sn)
    section_num := some sn
    start_idx := s
    end_idx := endIdx
    content := String.mk (pyStrip (sliceCs cs e endIdx)) }

/-- Lines 341-371: each match yields a section ending at the next match's
start (the last one at `len(text)`). -/
def buildSections (cs : List Char) : List (Nat × Nat) → List PySection
  | [] => []
  | [(s, e)] => [mkHeadingSection cs s e cs.length]
  | (s, e) :: (s', e') :: rest =>
    mkHeadingSection cs s e s' :: buildSections cs ((s', e') :: rest)

/-- Lines 373-388: the paragraph fallback (only entered when the per-match
loop produced no sections, which cannot happen — see the C4 theorems). -/
def paraFallback (cs : List Char) : List PySection :=
  let paragraphs := pySplitRe paraRE cs
  if paragraphs.length > 1 then
    paragraphs.enum.filterMap fun ip =>
      if 100 < (pyStrip ip.2).length then
        some { title := "Section " ++ toString (ip.1 + 1)
               std_title := some ("section " ++ toString (ip.1 + 1))
               section_num := some (some (toString (ip.1 + 1)))
               start_idx := (pyFind ip.2 cs).toNat
               end_idx := (pyFind ip.2 cs).toNat + ip.2.length
               content := String.mk ip.2 }
      else none
  else
    [{ title := "Document", std_title := some "document", section_num := some none,
       start_idx := 0, end_idx := cs.length, content := String.mk cs }]

/-- `detect_sections(text)` (lines 320-390). -/
def detect_sections (text : String) : List PySection :=
  let cs := text.data
  let ms := pyFinditer sectionMatcher cs
  if ms = [] then
    [{ title := "Document", std_title := none, section_num := none,
       start_idx := 0, end_idx := cs.length, content := text }]
  else
    let sections := buildSections cs ms
    if sections = [] then paraFallback cs else sections

/-- `extract_problem_statement_num_from_query` (lines 392-405): first
pattern whose search yields a truthy group 1 wins. -/
def extract_problem_statement_num_from_query (query : String) : Option String :=
  go queryPats query.data
where
  go : List Pat → List Char → Option String
    | [], _ => none
    | p :: ps, cs =>
      match reSearchGroup p cs with
      | some g => if g ≠ "" then some g else go ps cs
      | none => go ps cs

/-! ### `chunk_text` (`model.py` lines 57-63) -/

/-- Consecutive `w`-element windows of a list (Python
`[l[i:i+w] for i in range(0, len(l), w)]`); fuel-driven so that it reduces
definitionally, `chunksOf` supplies sufficient fuel. -/
def chunksOfGo (w : Nat) : Nat → List α → List (List α)
  | 0, _ => []
  | _, [] => []
  | fuel + 1, l => l.take w :: chunksOfGo w fuel (l.drop w)

def chunksOf (w : Nat) (l : List α) : List (List α) := chunksOfGo w l.length l

/-- `chunk_text(text, chunk_size)`: split into words, join consecutive
windows of `chunk_size` words with single spaces.  (Python would raise on
`chunk_size = 0`; every claim assumes `chunk_size ≥ 1`.) -/
def chunk_text (text : String) (chunk_size : Nat := 500) : List String :=
  if text = "" then []
  else (chunksOf chunk_size (pySplitC text.data)).map (fun g => String.mk (wjoin [' '] g))

/-- The whitespace-normalized word sequence of `text` (Python
`text.split()`), as strings. -/
def pywords (text : String) : List String := (pySplitC text.data).map String.mk

/-! ### Sentence splitting and text cleaning (`model.py` lines 80-116) -/

/-- Worker for `re.split(r'(?<=[.!?])\s+', text)`: a separator is a maximal
whitespace run whose preceding character is `.`, `!` or `?`.  `cur` is the
reversed current piece; fuel-driven for definitional reduction. -/
def sentGo : Nat → List Char → List Char → List (List Char)
  | 0, cur, _ => [cur.reverse]
  | _, cur, [] => [cur.reverse]
  | fuel + 1, cur, c :: cs =>
    if pyIsSpace c && (match cur with | p :: _ => isSentEnd p | [] => false) then
      cur.reverse :: sentGo fuel [] (cs.dropWhile pyIsSpace)
    else
      sentGo fuel (c :: cur) cs

/-- `simple_split_sentences(text)` (lines 90-92): regex split, then keep
pieces with nonempty strip. -/
def simple_split_sentences (text : String) : List String :=
  ((sentGo text.data.length [] text.data).filter (fun s => pyStrip s ≠ [])).map String.mk

/-- Worker for `re.sub(r'\s+', ' ', text)`; fuel-driven. -/
def collapseGo : Nat → List Char → List Char
  | 0, _ => []
  | _, [] => []
  | fuel + 1, c :: cs =>
    if pyIsSpace c then ' ' :: collapseGo fuel (cs.dropWhile pyIsSpace)
    else c :: collapseGo fuel cs

/-- `clean_text_for_summarization(text)` (lines 80-88): collapse whitespace
runs and strip, replace the bullet glyph, ensure terminal punctuation. -/
def clean_text_for_summarization (text : String) : String :=
  let t := pyStrip (collapseGo text.data.length text.data)
  let t := t.map (fun c => if c = '•' then '*' else c)
  let t := if t ≠ [] && !(match t.getLast? with | some c => isSentEnd c | none => false)
           then t ++ ['.'] else t
  String.mk t

/-! ### `extract_key_sentences` and `summarize_document` (`model.py` lines 94-217)

The abstractive summarizer collaborator is a parameter
`summ : text → max_length → min_length → Except Unit (List String)`
(the list models the pipeline's returned list of `summary_text` entries;
`.error` models a raised exception).  The sentence-tokenizer collaborator
`tok` models `nltk.sent_tokenize` the same way.  A Python `try/except`
around an expression that can only fail in modelled ways becomes
`pytryE body handler`. -/

/-- `try: body except: handler`, both producing a value of type `α`. -/
def pytryE (body handler : Except Unit α) : Except Unit α :=
  match body with
  | .ok a => .ok a
  | .error _ => handler

/-- Python `l[0]`: raises `IndexError` on an empty list. -/
def pyIndex0 : List α → Except Unit α
  | [] => .error ()
  | a :: _ => .ok a

/-- `extract_key_sentences(text, num_sentences)` (lines 94-116).  Both the
NLTK import failure and a `sent_tokenize` failure fall back to
`simple_split_sentences`; the function itself never raises. -/
def extract_key_sentences (tok : String → Except Unit (List String))
    (text : String) (num_sentences : Nat := 5) : String :=
  let sentences :=
    match tok text with
    | .ok s => s
    | .error _ => simple_split_sentences text
  if sentences = [] || sentences.length ≤ num_sentences then
    if sentences ≠ [] then sjoin sentences
    else String.mk (text.data.take 1000) ++ "..."
  else
    let start := sentences.take (Nat.max 1 (num_sentences / 2))
    let middle_idx := sentences.length / 2
    let middle := (sentences.drop middle_idx).take 1
    let endPart := sentences.drop (sentences.length - (num_sentences / 2 + 1))
    sjoin (start ++ middle ++ endPart)

/-- Lines 123-209: the body of `summarize_document`'s outer `try`.  Each
inner `try/except` is a `pytryE` whose handler mirrors the `except` clause;
uncaught-at-this-level exceptions propagate as `.error`. -/
def summarize_body (summ : String → Nat → Nat → Except Unit (List String))
    (tok : String → Except Unit (List String))
    (text0 : String) (max_length : Nat) : Except Unit String :=
  let text := clean_text_for_summarization text0
  let words := pySplitS text
  let total_words := words.length
  if total_words < 100 then .ok text
  else if total_words > 3000 then
    let beginSel := sjoin (words.take 800)
    let middle_start := total_words / 2 - 400
    let middleSel := sjoin ((words.drop middle_start).take 800)
    let endSel := sjoin (words.drop (total_words - 800))
    pytryE
      (do
        let begin_text :=
          match pytryE (do
              let s ← summ (clean_text_for_summarization beginSel) 100 30
              .ok (match s with | [] => "" | h :: _ => h))
            (.ok (extract_key_sentences tok beginSel 2)) with
          | .ok t => t
          | .error _ => ""
        let middle_text :=
          match pytryE (do
              let s ← summ (clean_text_for_summarization middleSel) 100 30
              .ok (match s with | [] => "" | h :: _ => h))
            (.ok (extract_key_sentences tok middleSel 2)) with
          | .ok t => t
          | .error _ => ""
        let end_text :=
          match pytryE (do
              let s ← summ (clean_text_for_summarization endSel) 100 30
              .ok (match s with | [] => "" | h :: _ => h))
            (.ok (extract_key_sentences tok endSel 2)) with
          | .ok t => t
          | .error _ => ""
        let result := String.mk (pyStrip (begin_text ++ " " ++ middle_text ++ " " ++ end_text).data)
        if result ≠ "" then .ok result
        else .ok ("Key points: " ++ extract_key_sentences tok text 5))
      (.ok ("Document overview: " ++ extract_key_sentences tok text 5))
  else if total_words > 800 then
    let selected := sjoin (words.take 400) ++ " " ++ sjoin (words.drop (total_words - 400))
    pytryE
      (do
        let s ← summ (clean_text_for_summarization selected) 150 30
        let h ← pyIndex0 s
        .ok h)
      (.ok ("Key points: " ++ extract_key_sentences tok text 5))
  else
    pytryE
      (do
        let s ← summ text (min max_length 150) 30
        match s with
        | h :: _ => .ok h
        | [] => .ok (extract_key_sentences tok text 3))
      (.ok (extract_key_sentences tok text 3))

/-- `summarize_document(text, max_length)` (lines 118-217).  `.error` would
mean an exception escaping to the caller; the outer handler (lines 211-217)
mirrors the final `try/except` pair.  By the time that handler could run,
the local `text` has been rebound (line 123) to the cleaned text, which is
what it uses. -/
def summarize_document (summ : String → Nat → Nat → Except Unit (List String))
    (tok : String → Except Unit (List String))
    (text : String) (max_length : Nat := 1024) : Except Unit String :=
  if text = "" || (pyStrip text.data).length < 50 then
    .ok "Document is too short or empty to summarize."
  else
    pytryE (summarize_body summ tok text max_length)
      (pytryE
        (.ok ("Key points: " ++
          extract_key_sentences tok (clean_text_for_summarization text) 5))
        (.ok ("Document preview: " ++
          String.mk ((clean_text_for_summarization text).data.take 500) ++ "...")))

/-! ### `validate_summary` (`model.py` lines 219-277)

The embedder is a parameter `enc : String → Option (List ℚ)` (`none`
models a raised model exception; `model.encode` over a list fails if any
element fails).  Scores are rationals; `np.dot` of an embedding matrix with
one vector is a per-chunk dot product; `np.max` raises on an empty array
(modelled by `listMax` returning `none`, which the `except` catches). -/

def dotQ (a b : List ℚ) : ℚ := (a.zip b).foldl (fun acc p => acc + p.1 * p.2) 0

def listMax : List ℚ → Option ℚ
  | [] => none
  | x :: xs => some (xs.foldl max x)

/-- Python result dict.  The fail-closed dicts (lines 220-225, 273-277)
carry only `valid`, `score` and `message`; a missing key is `none`. -/
structure ValidationResult where
  valid : Bool
  score : ℚ
  avg_score : Option ℚ
  fact_validity : Option ℚ
  confidence : Option String
  message : String
deriving DecidableEq, Repr

/-- Lines 227-269: the body of `validate_summary`'s `try`; `none` at any
step models the exception the `except` clause catches. -/
def validate_body (enc : String → Option (List ℚ))
    (summary source_text : String) (threshold : ℚ) : Option ValidationResult :=
  match enc summary with
  | none => none
  | some sv =>
    match (chunk_text source_text 500).mapM enc with
    | none => none
    | some chunk_embs =>
      match listMax (chunk_embs.map (fun ce => dotQ ce sv)) with
      | none => none
      | some max_sim =>
        match ((simple_split_sentences summary).filter
            (fun sen => 5 ≤ (pySplitC sen.data).length)).mapM (fun sen =>
              match enc sen with
              | none => none
              | some se => listMax (chunk_embs.map (fun ce => dotQ ce se))) with
        | none => none
        | some fact_scores =>
          some { valid := threshold ≤ max_sim
                 score := max_sim
                 avg_score := some ((chunk_embs.map (fun ce => dotQ ce sv)).foldl (· + ·) 0 /
                   ((chunk_embs.map (fun ce => dotQ ce sv)).length : ℚ))
                 fact_validity := some
                   (((fact_scores.filter (fun x => threshold < x)).length : ℚ) /
                     ((Nat.max 1 fact_scores.length : Nat) : ℚ))
                 confidence := some (if 8/10 < max_sim then "High"
                                     else if 7/10 < max_sim then "Medium" else "Low")
                 message := if threshold ≤ max_sim then
                     "Summary is valid and supported by the document."
                   else "Summary may contain inaccuracies or unsupported information." }

/-- `validate_summary(summary, source_text, threshold)` (lines 219-277).
The Python error message interpolates `str(e)`; the exception text itself
is not modelled. -/
def validate_summary (enc : String → Option (List ℚ))
    (summary source_text : String) (threshold : ℚ := 65/100) : ValidationResult :=
  if summary = "" || source_text = "" then
    { valid := false, score := 0, avg_score := none, fact_validity := none,
      confidence := none, message := "Missing summary or source content" }
  else
    match validate_body enc summary source_text threshold with
    | some r => r
    | none =>
      { valid := false, score := 0, avg_score := none, fact_validity := none,
        confidence := none, message := "Error validating summary" }

/-! ### `query_section` (`model.py` lines 407-493)

The embed-and-dot step is abstracted into `sim : E → String → ℚ`
(`np.dot(embedding, model.encode([prompt]).T)` for one chunk embedding),
and the QA pipeline into `qa : question → context → answer`. -/

/-- Metadata dict for one chunk: `sec` models the `"section"` key
(`meta.get("section", "")`), `section_num` the optional `"section_num"`
key (absent in records built by `process_document_with_sections`). -/
structure ChunkMeta where
  sec : Option String
  section_num : Option String
deriving DecidableEq, Repr

/-- `np.argmax`: index of the first maximal element (0 for an empty list,
which `query_section` never hits on a nonempty candidate set). -/
def argmaxGo : Nat → Nat → ℚ → List ℚ → Nat
  | _, best, _, [] => best
  | i, best, bv, x :: xs =>
    if bv < x then argmaxGo (i + 1) i x xs else argmaxGo (i + 1) best bv xs

def argmaxIdx : List ℚ → Nat
  | [] => 0
  | x :: xs => argmaxGo 1 0 x xs

/-- Python truthiness of an optional string. -/
def truthy : Option String → Bool
  | none => false
  | some s => s ≠ ""

/-- Python `a or b` on optional strings. -/
def pyOr (a b : Option String) : Option String := if truthy a then a else b

/-- Tier-1 chunk predicate (lines 424-444): metadata section id equals the
target, or the lowercased section title contains one of the exact terms. -/
def tier1Match (tp : String) (m : ChunkMeta) : Bool :=
  let title := lowerStr (m.sec.getD "")
  (match m.section_num with
   | some sn => sn ≠ "" && sn = tp
   | none => false) ||
  ["problem statement " ++ tp, "ps" ++ tp, "problem " ++ tp].any
    (fun t => containsSub t.data title.data)

/-- Tier-2 chunk predicate (lines 446-456): relaxed terms. -/
def tier2Match (tp : String) (m : ChunkMeta) : Bool :=
  let title := lowerStr (m.sec.getD "")
  ["statement " ++ tp, "section " ++ tp, tp].any
    (fun t => containsSub t.data title.data)

/-- The two filtering passes of `query_section` over
`(chunk, embedding, metadata)` triples: tier 2 runs only when tier 1
selected nothing.  The source indexes `chunks[i]`/`embeddings[i]` while
iterating `metadata`; the zip models the pipeline's equal-length lists. -/
def sectionFilter {E : Type} (tp : String)
    (chunks : List String) (embeddings : List E) (metadata : List ChunkMeta) :
    List (String × E × ChunkMeta) :=
  let triples := chunks.zip (embeddings.zip metadata)
  match triples.filter (fun tr => tier1Match tp tr.2.2) with
  | [] => triples.filter (fun tr => tier2Match tp tr.2.2)
  | f1h :: f1t => f1h :: f1t

/-- Lines 468-470: strip leading problem/ps-id phrases from the prompt;
keep the original prompt if the result is empty. -/
def cleanPrompt (prompt : String) : String :=
  let cleaned := pyStrip (removeMatches stripRE prompt.data)
  if cleaned = [] then prompt else String.mk cleaned

/-- The unfiltered search (lines 471-493 with no effective target):
similarity-rank all chunks, answer from the best one. -/
def queryFull {E : Type} (sim : E → String → ℚ) (qa : String → String → String)
    (chunks : List String) (embeddings : List E) (prompt : String) : String :=
  qa prompt (chunks.getD (argmaxIdx (embeddings.map (fun e => sim e prompt))) "")

/-- `query_section(chunks, embeddings, metadata, prompt, target_section)`
(lines 407-493). -/
def query_section {E : Type} (sim : E → String → ℚ) (qa : String → String → String)
    (chunks : List String) (embeddings : List E) (metadata : List ChunkMeta)
    (prompt : String) (target_section : Option String := none) : String :=
  if chunks = [] then "No document content to search."
  else
    let problem_num := extract_problem_statement_num_from_query prompt
    match pyOr problem_num target_section with
    | some tp =>
      if tp = "" then queryFull sim qa chunks embeddings prompt
      else
        match sectionFilter tp chunks embeddings metadata with
        | [] => "Could not find problem statement " ++ tp ++ " in the document."
        | flh :: flt =>
          let fl := flh :: flt
          let prompt1 := cleanPrompt prompt
          let best := argmaxIdx (fl.map (fun tr => sim tr.2.1 prompt1))
          let bestTr := fl.getD best flh
          "From " ++ bestTr.2.2.sec.getD "Unknown section" ++ ": " ++ qa prompt1 bestTr.1
    | none => queryFull sim qa chunks embeddings prompt

/-! ### Concrete collaborators and inputs used by witnesses and counterexamples -/

/-- A trivial similarity collaborator (every score 0). -/
def simZero : Unit → String → ℚ := fun _ _ => 0

/-- A QA collaborator that returns its context. -/
def qaEcho : String → String → String := fun _ c => c

/-- An embedder sending every text to the vector `[1]`. -/
def enc1 : String → Option (List ℚ) := fun _ => some [1]

/-- An always-raising abstractive summarizer. -/
def summFail : String → Nat → Nat → Except Unit (List String) := fun _ _ _ => .error ()

/-- An always-raising sentence tokenizer. -/
def tokFail : String → Except Unit (List String) := fun _ => .error ()

def dummySection : PySection :=
  { title := "", std_title := none, section_num := none,
    start_idx := 0, end_idx := 0, content := "" }

/-- Two 120-character paragraphs separated by a blank line; no heading
pattern matches anywhere in it. -/
def c4text : String :=
  String.mk (List.replicate 120 'a' ++ '\n' :: '\n' :: List.replicate 120 'b')

/-- A 40-word text (239 characters after stripping). -/
def c8text : String := sjoin (List.replicate 40 "wordy")

/-! ### Invariant of `finditer` output

`SpanChain lo hi spans`: every span `(s, e)` satisfies `lo ≤ s ≤ e ≤ hi`,
and each later span starts at or after both `s + 1` and `e`. -/

def SpanChain : Nat → Nat → List (Nat × Nat) → Prop
  | _, _, [] => True
  | lo, hi, (s, e) :: rest => lo ≤ s ∧ s ≤ e ∧ e ≤ hi ∧ SpanChain (max (s + 1) e) hi rest

/-! ## Lemmas about chunking (`chunk_text`) -/

theorem chunksOfGo_nil {α : Type} (w : Nat) : ∀ fuel, chunksOfGo w fuel ([] : List α) = [] := by
  intro fuel; cases fuel <;> rfl

theorem chunksOfGo_cons {α : Type} (w n : Nat) (a : α) (t : List α) :
    chunksOfGo w (n + 1) (a :: t) =
      List.take w (a :: t) :: chunksOfGo w n (List.drop w (a :: t)) := rfl

theorem chunksOfGo_flatten {α : Type} (w : Nat) (hw : 1 ≤ w) :
    ∀ fuel (l : List α), l.length ≤ fuel → (chunksOfGo w fuel l).flatten = l := by
  intro fuel
  induction fuel with
  | zero =>
    intro l h
    have hl : l = [] := List.eq_nil_of_length_eq_zero (Nat.le_zero.mp h)
    subst hl; rfl
  | succ n ih =>
    intro l h
    cases l with
    | nil => rfl
    | cons a t =>
      have hd : (List.drop w (a :: t)).length ≤ n := by
        rw [List.length_drop]; simp only [List.length_cons] at h ⊢; omega
      rw [chunksOfGo_cons, List.flatten_cons, ih _ hd, List.take_append_drop]

theorem chunksOfGo_length {α : Type} (w : Nat) (hw : 1 ≤ w) :
    ∀ fuel (l : List α), l.length ≤ fuel →
      (chunksOfGo w fuel l).length = (l.length + w - 1) / w := by
  intro fuel
  induction fuel with
  | zero =>
    intro l h
    have hl : l = [] := List.eq_nil_of_length_eq_zero (Nat.le_zero.mp h)
    subst hl
    show (0 : Nat) = (0 + w - 1) / w
    have : 0 + w - 1 < w := by omega
    rw [Nat.div_eq_of_lt this]
  | succ n ih =>
    intro l h
    cases l with
    | nil =>
      show (0 : Nat) = (0 + w - 1) / w
      have : 0 + w - 1 < w := by omega
      rw [Nat.div_eq_of_lt this]
    | cons a t =>
      have hd : (List.drop w (a :: t)).length ≤ n := by
        rw [List.length_drop]; simp only [List.length_cons] at h ⊢; omega
      rw [chunksOfGo_cons, List.length_cons, ih _ hd, List.length_drop]
      have hL1 : 1 ≤ (a :: t).length := by simp
      by_cases hcase : (a :: t).length ≤ w
      · have h1 : (a :: t).length - w = 0 := by omega
        rw [h1]
        have e1 : (0 + w - 1) / w = 0 := Nat.div_eq_of_lt (by omega)
        have e2 : ((a :: t).length + w - 1) / w = 1 :=
          Nat.div_eq_of_lt_le (by omega) (by omega)
        rw [e1, e2]
      · have e3 : (a :: t).length - w + w - 1 = (a :: t).length - 1 := by omega
        have e4 : (a :: t).length + w - 1 = ((a :: t).length - 1) + w := by omega
        rw [e3, e4, Nat.add_div_right _ (by omega : 0 < w)]

theorem chunksOfGo_ne_nil {α : Type} (w fuel : Nat) (l : List α)
    (hl : l ≠ []) (hf : 1 ≤ fuel) : chunksOfGo w fuel l ≠ [] := by
  cases fuel with
  | zero => omega
  | succ n =>
    cases l with
    | nil => exact absurd rfl hl
    | cons a t => rw [chunksOfGo_cons]; exact List.cons_ne_nil _ _

theorem wjoin_cons_of_ne (sep x : List Char) {l : List (List Char)} (h : l ≠ []) :
    wjoin sep (x :: l) = x ++ sep ++ wjoin sep l := by
  cases l with
  | nil => exact absurd rfl h
  | cons y ys => rfl

theorem wjoin_append (sep : List Char) :
    ∀ (a b : List (List Char)), a ≠ [] → b ≠ [] →
      wjoin sep (a ++ b) = wjoin sep a ++ sep ++ wjoin sep b := by
  intro a
  induction a with
  | nil => intro b h _; exact absurd rfl h
  | cons x xs ih =>
    intro b _ hb
    cases xs with
    | nil =>
      show wjoin sep (x :: b) = wjoin sep [x] ++ sep ++ wjoin sep b
      rw [wjoin_cons_of_ne sep x hb]
      rfl
    | cons y ys =>
      have hxs : (y :: ys : List (List Char)) ≠ [] := List.cons_ne_nil _ _
      have hab : (y :: ys) ++ b ≠ [] := by simp
      show wjoin sep (x :: ((y :: ys) ++ b)) = wjoin sep (x :: y :: ys) ++ sep ++ wjoin sep b
      rw [wjoin_cons_of_ne sep x hab, ih b hxs hb, wjoin_cons_of_ne sep x hxs]
      simp [List.append_assoc]

theorem wjoin_chunksOfGo (sep : List Char) (w : Nat) (hw : 1 ≤ w) :
    ∀ fuel (ws : List (List Char)), ws.length ≤ fuel →
      wjoin sep ((chunksOfGo w fuel ws).map (wjoin sep)) = wjoin sep ws := by
  intro fuel
  induction fuel with
  | zero =>
    intro ws h
    have hl : ws = [] := List.eq_nil_of_length_eq_zero (Nat.le_zero.mp h)
    subst hl; rfl
  | succ n ih =>
    intro ws h
    cases ws with
    | nil => rfl
    | cons a t =>
      rw [chunksOfGo_cons, List.map_cons]
      by_cases hd : List.drop w (a :: t) = []
      · rw [hd, chunksOfGo_nil]
        have hlen : (a :: t).length ≤ w := by
          have := List.length_drop w (a :: t)
          rw [hd] at this
          simp only [List.length_nil] at this
          omega
        rw [List.take_of_length_le hlen]
        rfl
      · have hdl : (List.drop w (a :: t)).length ≤ n := by
          rw [List.length_drop]; simp only [List.length_cons] at h ⊢; omega
        have hGo : chunksOfGo w n (List.drop w (a :: t)) ≠ [] :=
          chunksOfGo_ne_nil w n _ hd
            (by have : 0 < (List.drop w (a :: t)).length := List.length_pos.mpr hd; omega)
        have hmap : (chunksOfGo w n (List.drop w (a :: t))).map (wjoin sep) ≠ [] := by
          intro hc
          exact hGo (List.map_eq_nil_iff.mp hc)
        rw [wjoin_cons_of_ne sep _ hmap, ih _ hdl]
        have htake : List.take w (a :: t) ≠ [] := by
          cases w with
          | zero => omega
          | succ wn => exact List.cons_ne_nil _ _
        rw [← wjoin_append sep _ _ htake hd, List.take_append_drop]

/-- C5: joining `chunk_text T w`'s chunks with single spaces reproduces the
whitespace-normalized word sequence of `T`; the number of chunks is
`⌈word_count(T) / w⌉`; and any input whose word count fits in one window
comes back as a single chunk. -/
theorem chunk_text_roundtrip (T : String) (w : Nat) (hw : 1 ≤ w) :
    sjoin (chunk_text T w) = sjoin (pywords T) ∧
    (chunk_text T w).length = ((pywords T).length + w - 1) / w ∧
    (pywords T ≠ [] → (pywords T).length ≤ w → chunk_text T w = [sjoin (pywords T)]) := by
  by_cases hT : T = ""
  · subst hT
    refine ⟨rfl, ?_, fun hne _ => absurd rfl hne⟩
    show (0 : Nat) = (0 + w - 1) / w
    rw [Nat.div_eq_of_lt (by omega)]
  · have hchunk : chunk_text T w =
        (chunksOf w (pySplitC T.data)).map (fun g => String.mk (wjoin [' '] g)) := by
      simp [chunk_text, hT]
    have hdata : ∀ L : List (List (List Char)),
        (L.map (fun g => String.mk (wjoin [' '] g))).map String.data = L.map (wjoin [' ']) := by
      intro L; rw [List.map_map]; rfl
    have hdata2 : ∀ L : List (List Char), (L.map String.mk).map String.data = L := by
      intro L; rw [List.map_map]; exact List.map_id L
    refine ⟨?_, ?_, ?_⟩
    · rw [hchunk]
      show String.mk (wjoin [' ']
          (((chunksOf w (pySplitC T.data)).map (fun g => String.mk (wjoin [' '] g))).map
            String.data)) = sjoin (pywords T)
      rw [hdata]
      unfold sjoin pywords
      rw [hdata2]
      have := wjoin_chunksOfGo [' '] w hw (pySplitC T.data).length (pySplitC T.data) (le_refl _)
      unfold chunksOf
      rw [this]
    · rw [hchunk, List.length_map]
      unfold chunksOf pywords
      rw [chunksOfGo_length w hw _ _ (le_refl _), List.length_map]
    · intro hne hlen
      have hwsne : pySplitC T.data ≠ [] := by
        intro hc
        apply hne
        unfold pywords
        rw [hc]; rfl
      have hlen2 : (pySplitC T.data).length ≤ w := by
        unfold pywords at hlen
        rw [List.length_map] at hlen
        exact hlen
      obtain ⟨a, t, hat⟩ := List.exists_cons_of_ne_nil hwsne
      have hsingle : chunksOf w (pySplitC T.data) = [pySplitC T.data] := by
        unfold chunksOf
        rw [hat] at hlen2 ⊢
        rw [List.length_cons, chunksOfGo_cons,
          List.take_of_length_le (by simpa using hlen2),
          List.drop_eq_nil_of_le (by simpa using hlen2), chunksOfGo_nil]
      rw [hchunk, hsingle]
      show [String.mk (wjoin [' '] (pySplitC T.data))] = [sjoin (pywords T)]
      unfold sjoin pywords
      rw [hdata2]

/-- Witness for C5 at `T = "one two three"`, `w = 2`. -/
theorem chunk_text_roundtrip_witness :
    1 ≤ 2 ∧
      (sjoin (chunk_text "one two three" 2) = sjoin (pywords "one two three") ∧
        (chunk_text "one two three" 2).length = ((pywords "one two three").length + 2 - 1) / 2 ∧
        (pywords "one two three" ≠ [] → (pywords "one two three").length ≤ 2 →
          chunk_text "one two three" 2 = [sjoin (pywords "one two three")])) :=
  ⟨by decide, chunk_text_roundtrip "one two three" 2 (by decide)⟩

/-! ## Summarization theorems -/

/-- C7: `summarize_document` never lets an exception escape: for every
input, bound, and combination of collaborator behaviors (including an
always-raising abstractive summarizer and sentence tokenizer) it returns a
string.  The outer handler chain (lines 211-217) consists of non-raising
extractive/truncation fallbacks, so the result is always `.ok`. -/
theorem summarize_document_total
    (summ : String → Nat → Nat → Except Unit (List String))
    (tok : String → Except Unit (List String))
    (text : String) (max_length : Nat) :
    ∃ s, summarize_document summ tok text max_length = Except.ok s := by
  unfold summarize_document
  split
  · exact ⟨_, rfl⟩
  · unfold pytryE
    cases summarize_body summ tok text max_length with
    | ok a => exact ⟨a, rfl⟩
    | error e => exact ⟨_, rfl⟩

/-- C8 (amended): the "too short" gate is on the stripped *character*
count (`len(text.strip()) < 50`), not the word count: every input whose
stripped text has fewer than 50 characters gets the static message. -/
theorem summarize_document_too_short
    (summ : String → Nat → Nat → Except Unit (List String))
    (tok : String → Except Unit (List String))
    (text : String) (max_length : Nat)
    (h : (pyStrip text.data).length < 50) :
    summarize_document summ tok text max_length =
      .ok "Document is too short or empty to summarize." := by
  unfold summarize_document
  have hcond : (text = "" || decide ((pyStrip text.data).length < 50)) = true := by
    simp [h]
  rw [if_pos hcond]

/-- Witness for C8's amended theorem at `text = "short"`. -/
theorem summarize_document_too_short_witness :
    (pyStrip "short".data).length < 50 ∧
      summarize_document summFail tokFail "short" 1024 =
        .ok "Document is too short or empty to summarize." :=
  ⟨by decide, summarize_document_too_short summFail tokFail "short" 1024 (by decide)⟩

/-- C8 counterexample: a 40-word input (239 characters) does *not* get the
"too short" message — it falls into the `total_words < 100` branch and is
returned (cleaned) verbatim, refuting the word-count reading. -/
theorem summarize_document_word_count_cex :
    (pywords c8text).length = 40 ∧
      summarize_document summFail tokFail c8text 1024 = .ok (c8text ++ ".") ∧
      c8text ++ "." ≠ "Document is too short or empty to summarize." :=
  ⟨by decide, by rfl, by decide⟩

/-- C4: on an input with zero heading matches and two >100-character
blank-line-separated paragraphs, `detect_sections` returns the single
whole-document record (line 337's early return), even though the
paragraph-fallback block (lines 373-388) would have produced two numbered
sections; that block is unreachable. -/
theorem detect_sections_paragraph_fallback_dead :
    pyFinditer sectionMatcher c4text.data = [] ∧
      detect_sections c4text =
        [{ title := "Document", std_title := none, section_num := none,
           start_idx := 0, end_idx := 242, content := c4text }] ∧
      (paraFallback c4text.data).map (fun s => (s.title, s.start_idx, s.end_idx)) =
        [("Section 1", 0, 120), ("Section 2", 122, 242)] := by decide

/-! ## `detect_sections` theorems -/

theorem buildSections_fields (cs : List Char) :
    ∀ ms, ∀ sec ∈ buildSections cs ms, sec.std_title.isSome ∧ sec.section_num.isSome := by
  intro ms
  induction ms with
  | nil => intro sec h; exact absurd h (List.not_mem_nil sec)
  | cons hd tl ih =>
    obtain ⟨s, e⟩ := hd
    cases tl with
    | nil =>
      intro sec h
      rw [List.mem_singleton.mp h]
      exact ⟨rfl, rfl⟩
    | cons hd2 tl2 =>
      obtain ⟨s2, e2⟩ := hd2
      intro sec h
      rcases List.mem_cons.mp h with hhead | htail
      · rw [hhead]; exact ⟨rfl, rfl⟩
      · exact ih sec htail

theorem buildSections_length (cs : List Char) :
    ∀ ms, (buildSections cs ms).length = ms.length := by
  intro ms
  induction ms with
  | nil => rfl
  | cons hd tl ih =>
    obtain ⟨s, e⟩ := hd
    cases tl with
    | nil => rfl
    | cons hd2 tl2 =>
      obtain ⟨s2, e2⟩ := hd2
      show (buildSections cs ((s, e) :: (s2, e2) :: tl2)).length = _
      rw [show buildSections cs ((s, e) :: (s2, e2) :: tl2) =
        mkHeadingSection cs s e s2 :: buildSections cs ((s2, e2) :: tl2) from rfl]
      rw [List.length_cons, ih]
      rfl

theorem buildSections_ne_nil (cs : List Char) (ms : List (Nat × Nat)) (h : ms ≠ []) :
    buildSections cs ms ≠ [] := by
  intro hc
  apply h
  have := buildSections_length cs ms
  rw [hc] at this
  exact List.eq_nil_of_length_eq_zero this.symm

theorem detect_sections_eq_build (text : String)
    (h : pyFinditer sectionMatcher text.data ≠ []) :
    detect_sections text = buildSections text.data (pyFinditer sectionMatcher text.data) := by
  have hb := buildSections_ne_nil text.data _ h
  simp [detect_sections, h, hb]

/-- C9: with zero heading matches, `detect_sections` returns exactly the
record `{title: "Document", start_idx: 0, end_idx: len(text), content:
text}` with the `std_title` and `section_num` keys absent, whereas every
heading-derived record carries both keys. -/
theorem detect_sections_degenerate_keys (text : String) :
    (pyFinditer sectionMatcher text.data = [] →
      detect_sections text =
        [{ title := "Document", std_title := none, section_num := none,
           start_idx := 0, end_idx := text.data.length, content := text }]) ∧
    (pyFinditer sectionMatcher text.data ≠ [] →
      ∀ sec ∈ detect_sections text, sec.std_title.isSome ∧ sec.section_num.isSome) := by
  constructor
  · intro h
    simp [detect_sections, h]
  · intro h sec hmem
    rw [detect_sections_eq_build text h] at hmem
    exact buildSections_fields text.data _ sec hmem

/-- Witness for C9: the degenerate branch at `"hi"` (no match), and the
keyed branch at `"x section 1 y"` (one match). -/
theorem detect_sections_degenerate_keys_witness :
    detect_sections "hi" =
      [{ title := "Document", std_title := none, section_num := none,
         start_idx := 0, end_idx := 2, content := "hi" }] ∧
      (((detect_sections "x section 1 y").getD 0 dummySection).std_title.isSome ∧
        ((detect_sections "x section 1 y").getD 0 dummySection).section_num.isSome) :=
  ⟨(detect_sections_degenerate_keys "hi").1 (by decide),
   (detect_sections_degenerate_keys "x section 1 y").2 (by decide) _ (by decide)⟩

/-! ## Span-chain invariant of `finditer` and the section partition (C2) -/

theorem spanChain_cons {lo hi s e : Nat} {tl : List (Nat × Nat)} :
    SpanChain lo hi ((s, e) :: tl) ↔
      lo ≤ s ∧ s ≤ e ∧ e ≤ hi ∧ SpanChain (max (s + 1) e) hi tl := Iff.rfl

theorem spanChain_mono_lo {l : List (Nat × Nat)} :
    ∀ {lo lo' hi : Nat}, SpanChain lo hi l → lo' ≤ lo → SpanChain lo' hi l := by
  cases l with
  | nil => intro lo lo' hi _ _; trivial
  | cons hd tl =>
    obtain ⟨s, e⟩ := hd
    intro lo lo' hi h hle
    exact ⟨le_trans hle h.1, h.2⟩

theorem spanChain_mono_hi :
    ∀ (l : List (Nat × Nat)) {lo hi hi' : Nat},
      SpanChain lo hi l → hi ≤ hi' → SpanChain lo hi' l := by
  intro l
  induction l with
  | nil => intro lo hi hi' _ _; trivial
  | cons hd tl ih =>
    obtain ⟨s, e⟩ := hd
    intro lo hi hi' h hle
    exact ⟨h.1, h.2.1, le_trans h.2.2.1 hle, ih h.2.2.2 hle⟩

theorem finditerGo_chain (m : List Char → Option (List Char)) :
    ∀ fuel pos cs, SpanChain pos (pos + cs.length) (finditerGo m fuel pos cs) := by
  intro fuel
  induction fuel with
  | zero => intro pos cs; trivial
  | succ n ih =>
    intro pos cs
    cases hm : m cs with
    | none =>
      cases cs with
      | nil => simp only [finditerGo, hm]; trivial
      | cons c cs' =>
        simp only [finditerGo, hm]
        have h1 := ih (pos + 1) cs'
        have h2 : (pos + 1) + cs'.length = pos + (c :: cs').length := by
          simp only [List.length_cons]; omega
        rw [h2] at h1
        exact spanChain_mono_lo h1 (by omega)
    | some rest =>
      by_cases hlen : cs.length - rest.length = 0
      · cases cs with
        | nil =>
          simp only [finditerGo, hm, if_pos hlen]
          exact ⟨le_refl _, le_refl _, by simp, trivial⟩
        | cons c cs' =>
          simp only [finditerGo, hm, if_pos hlen]
          refine ⟨le_refl _, le_refl _, by simp, ?_⟩
          have hmax : max (pos + 1) pos = pos + 1 := by omega
          rw [hmax]
          have h1 := ih (pos + 1) cs'
          have h2 : (pos + 1) + cs'.length = pos + (c :: cs').length := by
            simp only [List.length_cons]; omega
          rw [h2] at h1
          exact h1
      · simp only [finditerGo, hm, if_neg hlen]
        refine ⟨le_refl _, by omega, by omega, ?_⟩
        have hmax : max (pos + 1) (pos + (cs.length - rest.length)) =
            pos + (cs.length - rest.length) := by omega
        rw [hmax]
        exact spanChain_mono_hi _ (ih (pos + (cs.length - rest.length)) rest) (by omega)

theorem buildSections_cons_cons (cs : List Char) (s e s2 e2 : Nat) (tl : List (Nat × Nat)) :
    buildSections cs ((s, e) :: (s2, e2) :: tl) =
      mkHeadingSection cs s e s2 :: buildSections cs ((s2, e2) :: tl) := rfl

theorem mkHeadingSection_start (cs : List Char) (s e endIdx : Nat) :
    (mkHeadingSection cs s e endIdx).start_idx = s := rfl

theorem mkHeadingSection_end (cs : List Char) (s e endIdx : Nat) :
    (mkHeadingSection cs s e endIdx).end_idx = endIdx := rfl

theorem buildSections_head_start (cs : List Char) (s e : Nat) (tl : List (Nat × Nat)) :
    ((buildSections cs ((s, e) :: tl)).head?).map PySection.start_idx = some s := by
  cases tl with
  | nil => rfl
  | cons hd2 tl2 => obtain ⟨s2, e2⟩ := hd2; rfl

theorem buildSections_chain (cs : List Char) :
    ∀ ms lo, SpanChain lo cs.length ms →
      List.Chain' (fun a b => a.end_idx = b.start_idx ∧ a.start_idx < b.start_idx)
        (buildSections cs ms) := by
  intro ms
  induction ms with
  | nil => intro lo _; simp [buildSections]
  | cons hd tl ih =>
    obtain ⟨s, e⟩ := hd
    cases tl with
    | nil => intro lo _; exact List.chain'_singleton _
    | cons hd2 tl2 =>
      obtain ⟨s2, e2⟩ := hd2
      intro lo h
      obtain ⟨h1, h2, h3, h4⟩ := h
      have hs2 : s + 1 ≤ s2 := le_trans (le_max_left _ _) h4.1
      rw [buildSections_cons_cons, List.chain'_cons']
      refine ⟨?_, ih _ h4⟩
      intro b hb
      have hhead := buildSections_head_start cs s2 e2 tl2
      have hb' : (buildSections cs ((s2, e2) :: tl2)).head? = some b := Option.mem_def.mp hb
      rw [hb'] at hhead
      have hbs : b.start_idx = s2 := by simpa using hhead
      constructor
      · rw [mkHeadingSection_end, hbs]
      · rw [mkHeadingSection_start, hbs]; omega

theorem buildSections_bounds (cs : List Char) :
    ∀ ms lo, SpanChain lo cs.length ms →
      ∀ sec ∈ buildSections cs ms,
        sec.start_idx ≤ sec.end_idx ∧ sec.end_idx ≤ cs.length := by
  intro ms
  induction ms with
  | nil => intro lo _ sec hmem; exact absurd hmem (List.not_mem_nil sec)
  | cons hd tl ih =>
    obtain ⟨s, e⟩ := hd
    cases tl with
    | nil =>
      intro lo h sec hmem
      obtain ⟨h1, h2, h3, _⟩ := h
      rw [List.mem_singleton.mp hmem]
      constructor
      · rw [mkHeadingSection_start, mkHeadingSection_end]; omega
      · rw [mkHeadingSection_end]
    | cons hd2 tl2 =>
      obtain ⟨s2, e2⟩ := hd2
      intro lo h sec hmem
      obtain ⟨h1, h2, h3, h4⟩ := h
      have hs2 : s + 1 ≤ s2 := le_trans (le_max_left _ _) h4.1
      have hs2e : s2 ≤ e2 := h4.2.1
      have he2 : e2 ≤ cs.length := h4.2.2.1
      rw [buildSections_cons_cons] at hmem
      rcases List.mem_cons.mp hmem with hhead | htail
      · rw [hhead]
        constructor
        · rw [mkHeadingSection_start, mkHeadingSection_end]; omega
        · rw [mkHeadingSection_end]; omega
      · exact ih _ h4 sec htail

theorem buildSections_cover (cs : List Char) :
    ∀ tl s e lo, SpanChain lo cs.length ((s, e) :: tl) →
      ∀ k, (s ≤ k ∧ k < cs.length) ↔
        ∃ sec ∈ buildSections cs ((s, e) :: tl), sec.start_idx ≤ k ∧ k < sec.end_idx := by
  intro tl
  induction tl with
  | nil =>
    intro s e lo h k
    constructor
    · rintro ⟨hk1, hk2⟩
      refine ⟨mkHeadingSection cs s e cs.length, List.mem_singleton_self _, ?_, ?_⟩
      · rw [mkHeadingSection_start]; exact hk1
      · rw [mkHeadingSection_end]; exact hk2
    · rintro ⟨sec, hmem, hk1, hk2⟩
      rw [List.mem_singleton.mp hmem] at hk1 hk2
      rw [mkHeadingSection_start] at hk1
      rw [mkHeadingSection_end] at hk2
      exact ⟨hk1, hk2⟩
  | cons hd2 tl2 ih =>
    obtain ⟨s2, e2⟩ := hd2
    intro s e lo h k
    obtain ⟨h1, h2, h3, h4⟩ := h
    have hs2 : s + 1 ≤ s2 := le_trans (le_max_left _ _) h4.1
    have hs2len : s2 ≤ cs.length := le_trans h4.2.1 h4.2.2.1
    have ihk := ih s2 e2 _ h4 k
    rw [buildSections_cons_cons]
    constructor
    · rintro ⟨hk1, hk2⟩
      by_cases hcase : k < s2
      · refine ⟨mkHeadingSection cs s e s2, List.mem_cons_self _ _, ?_, ?_⟩
        · rw [mkHeadingSection_start]; exact hk1
        · rw [mkHeadingSection_end]; exact hcase
      · push_neg at hcase
        obtain ⟨sec, hmem, hsec⟩ := ihk.mp ⟨hcase, hk2⟩
        exact ⟨sec, List.mem_cons_of_mem _ hmem, hsec⟩
    · rintro ⟨sec, hmem, hk1, hk2⟩
      rcases List.mem_cons.mp hmem with hhead | htail
      · rw [hhead] at hk1 hk2
        rw [mkHeadingSection_start] at hk1
        rw [mkHeadingSection_end] at hk2
        exact ⟨hk1, lt_of_lt_of_le hk2 hs2len⟩
      · obtain ⟨hk1', hk2'⟩ := ihk.mpr ⟨sec, htail, hk1, hk2⟩
        exact ⟨by omega, hk2'⟩

/-- C2 (amended): with `N ≥ 1` heading matches, `detect_sections` returns
`N` sections, ordered by start offset with contiguous `[start, end)`
ranges (each section's `end_idx` is the next one's `start_idx`), whose
union covers `[first_match_start, len(text))`.  Coverage of `[0, len)`
fails when text precedes the first heading — see the counterexample. -/
theorem detect_sections_partition (text : String)
    (h : pyFinditer sectionMatcher text.data ≠ []) :
    (detect_sections text).length = (pyFinditer sectionMatcher text.data).length ∧
    List.Chain' (fun a b => a.end_idx = b.start_idx ∧ a.start_idx < b.start_idx)
      (detect_sections text) ∧
    (∀ sec ∈ detect_sections text,
      sec.start_idx ≤ sec.end_idx ∧ sec.end_idx ≤ text.data.length) ∧
    ∀ k : Nat,
      ((((pyFinditer sectionMatcher text.data).head?.map Prod.fst).getD 0 ≤ k ∧
          k < text.data.length) ↔
        ∃ sec ∈ detect_sections text, sec.start_idx ≤ k ∧ k < sec.end_idx) := by
  obtain ⟨⟨s, e⟩, tl, hms⟩ := List.exists_cons_of_ne_nil h
  have hchain : SpanChain 0 text.data.length (pyFinditer sectionMatcher text.data) := by
    have h0 := finditerGo_chain sectionMatcher (text.data.length + 1) 0 text.data
    rw [Nat.zero_add] at h0
    exact h0
  rw [detect_sections_eq_build text h, hms]
  rw [hms] at hchain
  refine ⟨buildSections_length text.data _, ?_, ?_, ?_⟩
  · exact buildSections_chain text.data _ _ hchain
  · exact buildSections_bounds text.data _ _ hchain
  · intro k
    have hcov := buildSections_cover text.data tl s e 0 hchain k
    simpa using hcov

/-- Witness for C2's amended theorem at `"x section 1 y"` (one heading
match starting at offset 2) and position `k = 5`. -/
theorem detect_sections_partition_witness :
    (detect_sections "x section 1 y").length =
        (pyFinditer sectionMatcher "x section 1 y".data).length ∧
      ((((pyFinditer sectionMatcher "x section 1 y".data).head?.map Prod.fst).getD 0 ≤ 5 ∧
          5 < "x section 1 y".data.length) ↔
        ∃ sec ∈ detect_sections "x section 1 y", sec.start_idx ≤ 5 ∧ 5 < sec.end_idx) :=
  ⟨(detect_sections_partition "x section 1 y" (by decide)).1,
   (detect_sections_partition "x section 1 y" (by decide)).2.2.2 5⟩

/-- C2 counterexample: on `"x section 1 y"` the single detected section
spans `[2, 13)`, so position `0` is covered by no section and the union is
not `[0, len(text))`. -/
theorem detect_sections_cover_zero_cex :
    (detect_sections "x section 1 y").map (fun sec => (sec.start_idx, sec.end_idx)) =
        [(2, 13)] ∧
      ¬ ∃ sec ∈ detect_sections "x section 1 y", sec.start_idx ≤ 0 ∧ 0 < sec.end_idx := by
  decide

/-! ## `query_section` theorems (C1, C6) -/

theorem sectionFilter_eq_nil {E : Type} (tp : String) (chunks : List String)
    (embeddings : List E) (metadata : List ChunkMeta)
    (h1 : ∀ m ∈ metadata, tier1Match tp m = false)
    (h2 : ∀ m ∈ metadata, tier2Match tp m = false) :
    sectionFilter tp chunks embeddings metadata = [] := by
  have hmem : ∀ tr ∈ chunks.zip (embeddings.zip metadata), tr.2.2 ∈ metadata := by
    intro tr htr
    obtain ⟨c, emb, m⟩ := tr
    exact (List.of_mem_zip (List.of_mem_zip htr).2).2
  have hf1 : (chunks.zip (embeddings.zip metadata)).filter
      (fun tr => tier1Match tp tr.2.2) = [] := by
    rw [List.filter_eq_nil_iff]
    intro tr htr
    simp [h1 _ (hmem tr htr)]
  have hf2 : (chunks.zip (embeddings.zip metadata)).filter
      (fun tr => tier2Match tp tr.2.2) = [] := by
    rw [List.filter_eq_nil_iff]
    intro tr htr
    simp [h2 _ (hmem tr htr)]
  unfold sectionFilter
  simp only [hf1, hf2]

/-- C1 (amended): when a target section is in effect and neither the exact
tier nor the broad tier selects any chunk, `query_section` returns the
failure message `"Could not find problem statement {t} in the document."`;
there is no fall-back to the full unfiltered chunk set. -/
theorem query_section_not_found {E : Type} (sim : E → String → ℚ)
    (qa : String → String → String) (chunks : List String) (embeddings : List E)
    (metadata : List ChunkMeta) (prompt : String) (target_section : Option String)
    (tp : String)
    (hch : chunks ≠ [])
    (heff : pyOr (extract_problem_statement_num_from_query prompt) target_section = some tp)
    (htp : tp ≠ "")
    (h1 : ∀ m ∈ metadata, tier1Match tp m = false)
    (h2 : ∀ m ∈ metadata, tier2Match tp m = false) :
    query_section sim qa chunks embeddings metadata prompt target_section =
      "Could not find problem statement " ++ tp ++ " in the document." := by
  have hf := sectionFilter_eq_nil tp chunks embeddings metadata h1 h2
  simp only [query_section, heff, hf]
  rw [if_neg hch, if_neg htp]

/-- Witness for C1's amended theorem: one chunk whose section title
`"intro"` matches no tier for target `"2"`. -/
theorem query_section_not_found_witness :
    (["c"] : List String) ≠ [] ∧
      query_section simZero qaEcho ["c"] [()] [{ sec := some "intro", section_num := none }]
          "what is problem statement 2" none =
        "Could not find problem statement 2 in the document." :=
  ⟨by decide,
   query_section_not_found simZero qaEcho ["c"] [()]
     [{ sec := some "intro", section_num := none }] "what is problem statement 2" none "2"
     (by decide) (by decide) (by decide) (by decide) (by decide)⟩

/-- C1 counterexample: with both tiers empty the engine returns the
failure message, while the tier-3 search over the full unfiltered set that
the claim describes would have answered `"c"`. -/
theorem query_section_no_tier3_cex :
    query_section simZero qaEcho ["c"] [()] [{ sec := some "intro", section_num := none }]
        "what is problem statement 2" none =
      "Could not find problem statement 2 in the document." ∧
    queryFull simZero qaEcho ["c"] [()] "what is problem statement 2" = "c" ∧
    ("Could not find problem statement 2 in the document." : String) ≠ "c" := by decide

/-- C6 (amended): an identifier extracted from the query text takes
precedence (`problem_num or target_section`): whenever the query yields a
(nonempty) identifier, the `target_section` argument is ignored entirely —
the result is the same as if no `target_section` had been supplied. -/
theorem query_section_query_id_precedence {E : Type} (sim : E → String → ℚ)
    (qa : String → String → String) (chunks : List String) (embeddings : List E)
    (metadata : List ChunkMeta) (prompt : String) (p : String)
    (hp : extract_problem_statement_num_from_query prompt = some p) (hne : p ≠ "")
    (ts : Option String) :
    query_section sim qa chunks embeddings metadata prompt ts =
      query_section sim qa chunks embeddings metadata prompt none := by
  have h1 : pyOr (some p) ts = some p := by simp [pyOr, truthy, hne]
  have h2 : pyOr (some p) none = some p := by simp [pyOr, truthy, hne]
  simp only [query_section, hp, h1, h2]

/-- Witness for C6's amended theorem: the query embeds id `"3"`, so
supplying `target_section = "2"` changes nothing. -/
theorem query_section_query_id_precedence_witness :
    extract_problem_statement_num_from_query "describe problem statement 3" = some "3" ∧
      query_section simZero qaEcho ["c2", "c3"] [(), ()]
          [{ sec := some "Problem Statement 2", section_num := none },
           { sec := some "Problem Statement 3", section_num := none }]
          "describe problem statement 3" (some "2") =
        query_section simZero qaEcho ["c2", "c3"] [(), ()]
          [{ sec := some "Problem Statement 2", section_num := none },
           { sec := some "Problem Statement 3", section_num := none }]
          "describe problem statement 3" none :=
  ⟨by decide,
   query_section_query_id_precedence simZero qaEcho ["c2", "c3"] [(), ()]
     [{ sec := some "Problem Statement 2", section_num := none },
      { sec := some "Problem Statement 3", section_num := none }]
     "describe problem statement 3" "3" (by decide) (by decide) (some "2")⟩

/-- C6 counterexample: `target_section = "2"` is supplied, the query embeds
id `"3"`, and the answer comes from Problem Statement 3 — the explicit
argument does not win. -/
theorem query_section_target_overridden_cex :
    query_section simZero qaEcho ["c2", "c3"] [(), ()]
        [{ sec := some "Problem Statement 2", section_num := none },
         { sec := some "Problem Statement 3", section_num := none }]
        "describe problem statement 3" (some "2") = "From Problem Statement 3: c3" ∧
      ("From Problem Statement 3: c3" : String) ≠ "From Problem Statement 2: c2" := by decide

/-! ## `validate_summary` theorems (C3, C10) -/

theorem validate_body_someFields (enc : String → Option (List ℚ)) (s src : String)
    (t : ℚ) (r : ValidationResult) (hb : validate_body enc s src t = some r) :
    r.avg_score.isSome ∧ r.fact_validity.isSome ∧ r.confidence.isSome := by
  unfold validate_body at hb
  split at hb
  · exact absurd hb (by simp)
  · split at hb
    · exact absurd hb (by simp)
    · split at hb
      · exact absurd hb (by simp)
      · split at hb
        · exact absurd hb (by simp)
        · rw [Option.some.injEq] at hb
          subst hb
          exact ⟨rfl, rfl, rfl⟩

theorem validate_body_fact_validity_empty (enc : String → Option (List ℚ))
    (s src : String) (t : ℚ) (r : ValidationResult)
    (h : (simple_split_sentences s).filter (fun sen => 5 ≤ (pySplitC sen.data).length) = [])
    (hb : validate_body enc s src t = some r) : r.fact_validity = some 0 := by
  unfold validate_body at hb
  rw [h] at hb
  split at hb
  · exact absurd hb (by simp)
  · split at hb
    · exact absurd hb (by simp)
    · split at hb
      · exact absurd hb (by simp)
      · simp only [List.mapM_nil, Option.pure_def] at hb
        rw [Option.some.injEq] at hb
        subst hb
        simp

/-- C3 (amended): when no summary sentence has at least 5 words,
`fact_validity` is `sum(...) / max(1, 0) = 0.0` — not `1.0`; on the
fail-closed paths the key is absent altogether. -/
theorem validate_summary_fact_validity_zero (enc : String → Option (List ℚ))
    (summary source_text : String) (t : ℚ)
    (h : (simple_split_sentences summary).filter
        (fun sen => 5 ≤ (pySplitC sen.data).length) = []) :
    (validate_summary enc summary source_text t).fact_validity = some 0 ∨
      (validate_summary enc summary source_text t).fact_validity = none := by
  unfold validate_summary
  split
  · right; rfl
  · cases hb : validate_body enc summary source_text t with
    | none => right; rfl
    | some r =>
      left
      exact validate_body_fact_validity_empty enc summary source_text t r h hb

/-- Witness for C3's amended theorem: a summary of two short sentences. -/
theorem validate_summary_fact_validity_zero_witness :
    (simple_split_sentences "Cats sleep. Dogs bark.").filter
        (fun sen => 5 ≤ (pySplitC sen.data).length) = [] ∧
      ((validate_summary enc1 "Cats sleep. Dogs bark." "hello" (65/100)).fact_validity =
          some 0 ∨
        (validate_summary enc1 "Cats sleep. Dogs bark." "hello" (65/100)).fact_validity =
          none) :=
  ⟨by decide,
   validate_summary_fact_validity_zero enc1 "Cats sleep. Dogs bark." "hello" (65/100)
     (by decide)⟩

/-- C3 counterexample: on a successful validation of a summary with zero
qualifying sentences, the returned `fact_validity` is `0`, not `1`. -/
theorem validate_summary_fact_validity_cex :
    (validate_summary enc1 "Cats sleep. Dogs bark." "hello" (65/100)).fact_validity =
        some 0 ∧
      (validate_summary enc1 "Cats sleep. Dogs bark." "hello" (65/100)).valid = true ∧
      (some (0 : ℚ)) ≠ some (1 : ℚ) := by decide

/-- C10: every fail-closed result (empty summary, empty source, or an
internal exception, i.e. `validate_body = none`) has `valid = false`,
`score = 0.0` and *omits* `avg_score`, `fact_validity` and `confidence`,
while every successful result carries all three. -/
theorem validate_summary_key_shape (enc : String → Option (List ℚ))
    (s src : String) (t : ℚ) :
    ((s = "" ∨ src = "" ∨ validate_body enc s src t = none) →
      (validate_summary enc s src t).valid = false ∧
      (validate_summary enc s src t).score = 0 ∧
      (validate_summary enc s src t).avg_score = none ∧
      (validate_summary enc s src t).fact_validity = none ∧
      (validate_summary enc s src t).confidence = none) ∧
    ((s ≠ "" ∧ src ≠ "" ∧ validate_body enc s src t ≠ none) →
      (validate_summary enc s src t).avg_score.isSome ∧
      (validate_summary enc s src t).fact_validity.isSome ∧
      (validate_summary enc s src t).confidence.isSome) := by
  constructor
  · intro h
    unfold validate_summary
    by_cases hss : s = "" ∨ src = ""
    · have hcond : (s = "" || src = "") = true := by
        rcases hss with h1 | h2
        · simp [h1]
        · simp [h2]
      rw [if_pos hcond]
      exact ⟨rfl, rfl, rfl, rfl, rfl⟩
    · have hb : validate_body enc s src t = none := by
        rcases h with h1 | h2 | h3
        · exact absurd (Or.inl h1) hss
        · exact absurd (Or.inr h2) hss
        · exact h3
      have hcond : ¬((s = "" || src = "") = true) := by
        push_neg at hss
        simp [hss.1, hss.2]
      rw [if_neg hcond, hb]
      exact ⟨rfl, rfl, rfl, rfl, rfl⟩
  · rintro ⟨hs, hsrc, hb⟩
    unfold validate_summary
    have hcond : ¬((s = "" || src = "") = true) := by simp [hs, hsrc]
    rw [if_neg hcond]
    cases hbv : validate_body enc s src t with
    | none => exact absurd hbv hb
    | some r => exact validate_body_someFields enc s src t r hbv

/-- Witness for C10: the empty-summary fail path omits the keys; a
successful validation carries them. -/
theorem validate_summary_key_shape_witness :
    ((validate_summary enc1 "" "x" (65/100)).avg_score = none ∧
      (validate_summary enc1 "" "x" (65/100)).confidence = none) ∧
      ((validate_summary enc1 "ok" "x" (65/100)).avg_score.isSome ∧
        (validate_summary enc1 "ok" "x" (65/100)).confidence.isSome) :=
  ⟨⟨((validate_summary_key_shape enc1 "" "x" (65/100)).1 (Or.inl rfl)).2.2.1,
    ((validate_summary_key_shape enc1 "" "x" (65/100)).1 (Or.inl rfl)).2.2.2.2⟩,
   ⟨((validate_summary_key_shape enc1 "ok" "x" (65/100)).2
      ⟨by decide, by decide, by decide⟩).1,
    ((validate_summary_key_shape enc1 "ok" "x" (65/100)).2
      ⟨by decide, by decide, by decide⟩).2.2⟩⟩
